import Mathlib

/-!
# GoSpeccy front end: event routing and render coordination

A shallow embedding of `src/src/gospeccy.go`: the package-level variables become the
record `Globals`, `render` and `toggleCLI` become functions on it, and one iteration of the
`for { select { ... } }` loop of `sdlEventLoop` becomes `iteration`.  Calls into the
collaborating packages (`sdl`, `clingon`, `spectrum`) are recorded, in program order, as a
list of `Action`s.
-/

namespace GoSpeccy

/-! ## Data model -/

/-- Conversion of an integer to Go's `int16` (two's complement wrap-around). -/
def wrapInt16 (x : Int) : Int := (x + 32768) % 65536 - 32768

/-- The value `*clingon.SDLRenderer` points to: the RGB surface created in `toggleCLI`
(`sdl.CreateRGBSurface(sdl.SRCALPHA, 640, 240, 32, ...)`) with the alpha set on it. -/
structure SDLRenderer where
  width : Nat
  height : Nat
  alpha : Nat
deriving DecidableEq, Repr

/-- The value `*clingon.Console` points to; only the prompt is set by this file. -/
structure Console where
  prompt : String
deriving DecidableEq, Repr

/-- The value `*spectrum.SDLScreen2x` points to; `surface = none` is a nil `GetSurface()`. -/
structure SDLScreen2x where
  surface : Option Nat
deriving DecidableEq, Repr

/-- The package-level variables of `gospeccy.go` (lines 42-50) that `render`, `toggleCLI`
and `sdlEventLoop` read or write.  A pointer is an `Option`, `none` being `nil`. -/
structure Globals where
  sdlScreen : Option SDLScreen2x
  cliRenderer : Option SDLRenderer
  cli : Option Console
  sdlInitComplete : Bool
  enableCLI : Bool
  cliAnimation : Bool
  cliY : Int
deriving DecidableEq, Repr

/-- The values of the package-level variables at program start: every pointer nil, every
flag false, `cliY int16 = 480`. -/
def initGlobals : Globals :=
  { sdlScreen := none, cliRenderer := none, cli := none,
    sdlInitComplete := false, enableCLI := false, cliAnimation := false, cliY := 480 }

/-- Values sent on `cli.HistoryCh()`. -/
inductive HistoryCmd where
  | HISTORY_PREV
  | HISTORY_NEXT
deriving DecidableEq, Repr

/-- Values sent on `cli.CursorCh()`. -/
inductive CursorCmd where
  | CURSOR_LEFT
  | CURSOR_RIGHT
deriving DecidableEq, Repr

/-- The calls and channel sends the front end makes on its collaborators. -/
inductive Action where
  /-- The call `appSurface.Blit(nil, sdlScreen.GetSurface(), nil)`. -/
  | blitScreen
  /-- The call `appSurface.Blit(&sdl.Rect(0, cliY, 0, 0), cliRenderer.GetSurface(), ...)`. -/
  | blitCLI (y : Int)
  /-- The call `appSurface.Flip()`. -/
  | flip
  /-- The call `app.RequestExit()`. -/
  | requestExit
  /-- The call `app.PrintfMsg(format, ...)`. -/
  | printfMsg (format : String)
  /-- The send `evtLoop.Pause <- 0`. -/
  | pauseAck
  /-- The send `evtLoop.Terminate <- 0`. -/
  | terminateAck
  /-- The send `cli.HistoryCh() <- v`. -/
  | historyCh (v : HistoryCmd)
  /-- The send `cli.CursorCh() <- v`. -/
  | cursorCh (v : CursorCmd)
  /-- The send `cli.CharCh() <- c`. -/
  | charCh (c : Nat)
  /-- The call `speccy.Keyboard.KeyDown(code)`. -/
  | keyDown (code : Nat)
  /-- The call `speccy.Keyboard.KeyUp(code)`. -/
  | keyUp (code : Nat)
deriving DecidableEq, Repr

/-! ## `render` and `toggleCLI` -/

/-- The function `render` (lines 52-75): the new globals and the calls made. -/
def render (g : Globals) : Globals × List Action :=
  if g.sdlInitComplete then
    let blit1 : List Action :=
      match g.sdlScreen with
      | some scr =>
        (match scr.surface with
         | some _ => [Action.blitScreen]
         | none => [])
      | none => []
    let g1 : Globals :=
      if g.enableCLI then
        (if g.cliY > 240 then { g with cliY := wrapInt16 (g.cliY - 1) } else g)
      else
        (if g.cliY > 480 then { g with cliRenderer := none }
         else { g with cliY := wrapInt16 (g.cliY + 1) })
    let blit2 : List Action :=
      match g1.cliRenderer with
      | some _ => [Action.blitCLI g1.cliY]
      | none => []
    (g1, blit1 ++ blit2 ++ [Action.flip])
  else
    (g, [])

/-- The function `toggleCLI` (lines 77-86). -/
def toggleCLI (g : Globals) : Globals :=
  let g1 : Globals := { g with enableCLI := !g.enableCLI }
  if g1.enableCLI then
    { g1 with
      cliRenderer := some { width := 640, height := 240, alpha := 0xaa },
      cli := some { prompt := "gospeccy> " } }
  else
    g1

/-! ## `sdlEventLoop` -/

/-- Value of `sdl.KEYDOWN` (SDL 1.2: `SDL_KEYDOWN = 2`). -/
def KEYDOWN : Nat := 2

/-- Value of `sdl.KEYUP` (SDL 1.2: `SDL_KEYUP = 3`). -/
def KEYUP : Nat := 3

/-- An `sdl.KeyboardEvent`, with the fields the loop reads.  `keyName` is the result of
`sdl.GetKeyName(sdl.Key(e.Keysym.Sym))` for this event. -/
structure KeyboardEvent where
  evType : Nat
  which : Nat
  state : Nat
  pad0 : List Nat
  scancode : Nat
  sym : Nat
  mod : Nat
  unicode : Nat
  keyName : String
deriving DecidableEq, Repr

/-- A value received from `sdl.Events`; the type switch has cases for `sdl.QuitEvent` and
`sdl.KeyboardEvent` only, every other event type is `other`. -/
inductive Event where
  | quit
  | keyboard (e : KeyboardEvent)
  | other
deriving DecidableEq, Repr

/-- What the loop takes from outside this file: the table `spectrum.SDL_KeyMap`
(`none` is a key without mapping), the library computation
`[]int(strings.ToUpper(string(unicode)))[0]` as a function of `unicode`, and the two
flags `app.Verbose` and `verboseKeyboard`. -/
structure Env where
  SDL_KeyMap : String → Option (List Nat)
  ToUpper : Nat → Nat
  Verbose : Bool
  verboseKeyboard : Bool

/-- The state of the goroutine `sdlEventLoop`: the package-level variables and its local
variable `toUpper` (line 90, initially false). -/
structure LoopState where
  globals : Globals
  toUpper : Bool
deriving DecidableEq, Repr

/-- The state in which `sdlEventLoop` starts when the globals are `g`. -/
def LoopState.start (g : Globals) : LoopState := { globals := g, toUpper := false }

/-- The diagnostic block guarded by `verboseKeyboard` (lines 119-132); the loop over
`e.Pad0` prints one message per element. -/
def verboseKeyboardMsgs (e : KeyboardEvent) : List Action :=
  [Action.printfMsg "\n", Action.printfMsg "%v: %v", Action.printfMsg "%04x "]
    ++ e.pad0.map (fun _ => Action.printfMsg "%02x ")
    ++ [Action.printfMsg "\n",
        Action.printfMsg "Type: %02x Which: %02x State: %02x Pad: %02x\n",
        Action.printfMsg "Scancode: %02x Sym: %08x Mod: %04x Unicode: %04x\n"]

/-- The loop `for i := 0; i < len(sequence); i++ (KeyDown(sequence[i]))` (lines 175-177),
entered with loop variable `i`. -/
def keyDownLoop (sequence : List Nat) (i : Nat) : List Action :=
  if h : i < sequence.length then
    Action.keyDown (sequence.get ⟨i, h⟩) :: keyDownLoop sequence (i + 1)
  else
    []
termination_by sequence.length - i

/-- The loop `for i := len(sequence) - 1; i >= 0; i-- (KeyUp(sequence[i]))` (lines 180-182),
entered with loop variable `i`; an index outside the slice ends the run (Go panics). -/
def keyUpLoop (sequence : List Nat) (i : Int) : List Action :=
  if _h : 0 ≤ i then
    match sequence.get? i.toNat with
    | some code => Action.keyUp code :: keyUpLoop sequence (i - 1)
    | none => []
  else
    []
termination_by (i + 1).toNat
decreasing_by omega

/-- The conversion `uint16(r)`. -/
def toUint16 (r : Nat) : Nat := r % 65536

/-- The `if` chain of `case sdl.KeyboardEvent` (lines 134-186): the special keys, then the
console or the machine keyboard according to `enableCLI`. -/
def routeKey (env : Env) (e : KeyboardEvent) (st : LoopState) : LoopState × List Action :=
  let keyName := e.keyName
  if keyName = "escape" ∧ e.evType = KEYDOWN then
    (st, (if env.Verbose then
            [Action.printfMsg "escape key -> request[exit the application]"] else [])
          ++ [Action.requestExit])
  else if keyName = "f10" ∧ e.evType = KEYDOWN then
    ({ st with globals := toggleCLI st.globals },
      if env.Verbose then [Action.printfMsg "f10 key -> toggle console"] else [])
  else if st.globals.enableCLI then
    if keyName = "left shift" ∧ e.evType = KEYDOWN then
      ({ st with toUpper := true }, [])
    else if keyName = "up" ∧ e.evType = KEYDOWN then
      (st, [Action.historyCh HistoryCmd.HISTORY_PREV])
    else if keyName = "down" ∧ e.evType = KEYDOWN then
      (st, [Action.historyCh HistoryCmd.HISTORY_NEXT])
    else if keyName = "left" ∧ e.evType = KEYDOWN then
      (st, [Action.cursorCh CursorCmd.CURSOR_LEFT])
    else if keyName = "right" ∧ e.evType = KEYDOWN then
      (st, [Action.cursorCh CursorCmd.CURSOR_RIGHT])
    else
      let unicode := e.unicode
      if unicode > 0 then
        if st.toUpper then
          (st, [Action.charCh (toUint16 (env.ToUpper unicode))])
        else
          (st, [Action.charCh unicode])
      else
        (st, [])
  else
    match env.SDL_KeyMap keyName with
    | some sequence =>
      if e.evType = KEYDOWN then
        (st, keyDownLoop sequence 0)
      else if e.evType = KEYUP then
        (st, keyUpLoop sequence ((sequence.length : Int) - 1))
      else
        (st, [])
    | none => (st, [])

/-- The body of `case sdl.KeyboardEvent` (lines 116-186): the diagnostics guarded by
`verboseKeyboard`, then the `if` chain. -/
def handleKeyboard (env : Env) (e : KeyboardEvent) (st : LoopState) :
    LoopState × List Action :=
  let log : List Action := if env.verboseKeyboard then verboseKeyboardMsgs e else []
  let r := routeKey env e st
  (r.1, log ++ r.2)

/-- The body of `case event := <-sdl.Events` (lines 108-187). -/
def handleEvent (env : Env) (ev : Event) (st : LoopState) : LoopState × List Action :=
  match ev with
  | Event.quit =>
    (st, (if env.Verbose then
            [Action.printfMsg "SDL quit -> request[exit the application]"] else [])
          ++ [Action.requestExit])
  | Event.keyboard e => handleKeyboard env e st
  | Event.other => (st, [])

/-- The branch of the `select` statement (lines 96-191) that an iteration executes. -/
inductive Branch where
  | pause
  | terminate
  | event (ev : Event)
  | default
deriving DecidableEq, Repr

/-- What is ready when the `select` statement is reached: a value on `evtLoop.Pause`, a
value on `evtLoop.Terminate`, the next value of `sdl.Events` if there is one. -/
structure Pending where
  pause : Bool
  terminate : Bool
  event : Option Event
deriving DecidableEq, Repr

/-- Go's `select`: a communication case may be executed when its channel is ready (among
several ready cases the runtime picks one, in no fixed order); the `default` case is
executed when no communication case is ready. -/
def selectMayRun (p : Pending) : Branch → Bool
  | Branch.pause => p.pause
  | Branch.terminate => p.terminate
  | Branch.event ev => decide (p.event = some ev)
  | Branch.default => !p.pause && !p.terminate && p.event.isNone

/-- One iteration of the `for` loop of `sdlEventLoop` executing branch `b`: the new state,
the calls made, and whether the loop goes on (`false` after the `return` of line 106). -/
def iteration (env : Env) (b : Branch) (st : LoopState) : LoopState × List Action × Bool :=
  match b with
  | Branch.pause => (st, [Action.pauseAck], true)
  | Branch.terminate =>
    (st, (if env.Verbose then [Action.printfMsg "SDL event loop: exit"] else [])
          ++ [Action.terminateAck], false)
  | Branch.event ev =>
    let r := handleEvent env ev st
    (r.1, r.2, true)
  | Branch.default =>
    let r := render st.globals
    ({ st with globals := r.1 }, r.2, true)

/-- The loop run on a given succession of branches: final state and all calls made; the
branches after a `terminate` are not executed. -/
def runLoop (env : Env) : List Branch → LoopState → LoopState × List Action
  | [], st => (st, [])
  | b :: bs, st =>
    let r := iteration env b st
    if r.2.2 then
      let r2 := runLoop env bs r.1
      (r2.1, r.2.1 ++ r2.2)
    else
      (r.1, r.2.1)

/-! ## Observations on a list of calls -/

/-- The calls made on `speccy.Keyboard`. -/
def keyboardCalls (t : List Action) : List Action :=
  t.filter (fun a => match a with
    | Action.keyDown _ => true
    | Action.keyUp _ => true
    | _ => false)

/-- The values sent on the three channels of the console (`HistoryCh`, `CursorCh`,
`CharCh`). -/
def consoleSends (t : List Action) : List Action :=
  t.filter (fun a => match a with
    | Action.historyCh _ => true
    | Action.cursorCh _ => true
    | Action.charCh _ => true
    | _ => false)

/-- The characters sent on `cli.CharCh()`, in order. -/
def charsForwarded (t : List Action) : List Nat :=
  t.filterMap (fun a => match a with
    | Action.charCh c => some c
    | _ => none)

/-- Number of `RequestExit()` calls. -/
def exitRequests (t : List Action) : Nat := t.count Action.requestExit

/-- Number of `Flip()` calls, the frames presented. -/
def flips (t : List Action) : Nat := t.count Action.flip

/-- The two input modes of the router; the code keeps the mode in `enableCLI`. -/
inductive InputMode where
  | MachineKeyboard
  | ConsoleOverlay
deriving DecidableEq, Repr

/-- The input mode the branch at line 146 (`if enableCLI`) acts on. -/
def inputMode (g : Globals) : InputMode :=
  if g.enableCLI then InputMode.ConsoleOverlay else InputMode.MachineKeyboard

/-- A keyboard event with the given type, key name and unicode, all other fields zero. -/
def mkKey (evType : Nat) (keyName : String) (unicode : Nat) : KeyboardEvent :=
  { evType := evType, which := 0, state := 0, pad0 := [0], scancode := 0, sym := 0,
    mod := 0, unicode := unicode, keyName := keyName }

/-- The branch that handles keyboard event `e`. -/
def keyBranch (e : KeyboardEvent) : Branch := Branch.event (Event.keyboard e)

/-- What can happen to the globals: a render tick of the loop, a call of `toggleCLI`, and
the assignment `sdlInitComplete = true` of `main` (line 373). -/
inductive Step where
  | render
  | toggleCLI
  | initComplete
deriving DecidableEq, Repr

/-- The globals after one step. -/
def Step.run : Step → Globals → Globals
  | Step.render, g => (GoSpeccy.render g).1
  | Step.toggleCLI, g => GoSpeccy.toggleCLI g
  | Step.initComplete, g => { g with sdlInitComplete := true }

/-- The globals after a succession of steps. -/
def runSteps : List Step → Globals → Globals
  | [], g => g
  | s :: ss, g => runSteps ss (s.run g)

/-- The globals after `n` consecutive render ticks. -/
def renderTicks : Nat → Globals → Globals
  | 0, g => g
  | n + 1, g => renderTicks n (render g).1

/-- The globals at program start once `main` has set `sdlInitComplete`. -/
def readyGlobals : Globals := { initGlobals with sdlInitComplete := true }

/-! ## Environments used in the concrete runs -/

/-- A key table that maps the key named "escape" (to two codes) and nothing else. -/
def escapeMappedEnv : Env :=
  { SDL_KeyMap := fun k => if k = "escape" then some [1, 2] else none,
    ToUpper := fun u => u, Verbose := false, verboseKeyboard := false }

/-- A key table that maps "left shift" and "a" to one code each; upper-casing of the
ASCII letters. -/
def asciiEnv : Env :=
  { SDL_KeyMap := fun k =>
      if k = "left shift" then some [0] else if k = "a" then some [5] else none,
    ToUpper := fun u => if 97 ≤ u ∧ u ≤ 122 then u - 32 else u,
    Verbose := false, verboseKeyboard := false }

/-- A key table that maps the two keys the loop tests for first, "escape" and "f10", to two
codes each, and the key "left" to three codes. -/
def composedKeysEnv : Env :=
  { SDL_KeyMap := fun k =>
      if k = "escape" then some [1, 2]
      else if k = "f10" then some [3, 4]
      else if k = "left" then some [5, 6, 7]
      else none,
    ToUpper := fun u => u, Verbose := false, verboseKeyboard := false }

/-! ## Lemmas on the two key loops -/

theorem keyDownLoop_eq_map (sequence : List Nat) (i : Nat) :
    keyDownLoop sequence i = (sequence.drop i).map Action.keyDown := by
  generalize h : sequence.length - i = n
  induction n generalizing i with
  | zero =>
    have hi : ¬ i < sequence.length := by omega
    rw [keyDownLoop, dif_neg hi, List.drop_eq_nil_of_le (by omega)]
    rfl
  | succ n ih =>
    have hi : i < sequence.length := by omega
    rw [keyDownLoop, dif_pos hi, ih (i + 1) (by omega), List.drop_eq_getElem_cons hi]
    rfl

theorem keyUpLoop_eq_map (sequence : List Nat) (n : Nat) (hn : n ≤ sequence.length) :
    keyUpLoop sequence ((n : Int) - 1) = ((sequence.take n).reverse).map Action.keyUp := by
  induction n with
  | zero =>
    rw [keyUpLoop]
    simp
  | succ n ih =>
    have h0 : (0 : Int) ≤ ((n + 1 : Nat) : Int) - 1 := by omega
    have hlt : n < sequence.length := by omega
    have h1 : (((n + 1 : Nat) : Int) - 1).toNat = n := by omega
    have h2 : ((n + 1 : Nat) : Int) - 1 - 1 = (n : Int) - 1 := by omega
    rw [keyUpLoop, dif_pos h0, h1, List.get?_eq_get hlt]
    simp only
    rw [h2, ih (by omega), List.take_succ, List.getElem?_eq_getElem hlt]
    simp only [Option.toList, List.reverse_append, List.reverse_cons, List.reverse_nil,
      List.nil_append, List.singleton_append, List.map_cons, List.get_eq_getElem]

theorem keyboardCalls_append (a b : List Action) :
    keyboardCalls (a ++ b) = keyboardCalls a ++ keyboardCalls b := by
  simp [keyboardCalls]

theorem keyboardCalls_verboseKeyboardMsgs (e : KeyboardEvent) :
    keyboardCalls (verboseKeyboardMsgs e) = [] := by
  simp [keyboardCalls, verboseKeyboardMsgs, List.filter_eq_nil_iff]

theorem keyboardCalls_map_keyDown (s : List Nat) :
    keyboardCalls (s.map Action.keyDown) = s.map Action.keyDown := by
  simp [keyboardCalls, List.filter_eq_self]

theorem keyboardCalls_map_keyUp (s : List Nat) :
    keyboardCalls (s.map Action.keyUp) = s.map Action.keyUp := by
  simp [keyboardCalls, List.filter_eq_self]

theorem keyboardCalls_log (env : Env) (e : KeyboardEvent) :
    keyboardCalls (if env.verboseKeyboard then verboseKeyboardMsgs e else []) = [] := by
  split
  · exact keyboardCalls_verboseKeyboardMsgs e
  · rfl

theorem keyUpLoop_eq_reverse (sequence : List Nat) :
    keyUpLoop sequence ((sequence.length : Int) - 1) = sequence.reverse.map Action.keyUp := by
  rw [keyUpLoop_eq_map sequence sequence.length (Nat.le_refl _), List.take_length]

theorem keyDownLoop_zero (sequence : List Nat) :
    keyDownLoop sequence 0 = sequence.map Action.keyDown := by
  rw [keyDownLoop_eq_map, List.drop_zero]

/-! ## Lemmas on `handleKeyboard` -/

theorem KEYUP_ne_KEYDOWN : KEYUP ≠ KEYDOWN := by decide

/-- In MachineKeyboard mode a key-down of a mapped key other than the two special keys
runs the forward loop. -/
theorem handleKeyboard_machine_down (env : Env) (st : LoopState) (e : KeyboardEvent)
    (s : List Nat) (hmode : st.globals.enableCLI = false) (ht : e.evType = KEYDOWN)
    (hmap : env.SDL_KeyMap e.keyName = some s)
    (hesc : e.keyName ≠ "escape") (hf10 : e.keyName ≠ "f10") :
    handleKeyboard env e st
      = (st, (if env.verboseKeyboard then verboseKeyboardMsgs e else [])
              ++ s.map Action.keyDown) := by
  simp [handleKeyboard, routeKey, hmode, ht, hmap, hesc, hf10, keyDownLoop_zero]

/-- In MachineKeyboard mode a key-up of a mapped key runs the reverse loop. -/
theorem handleKeyboard_machine_up (env : Env) (st : LoopState) (e : KeyboardEvent)
    (s : List Nat) (hmode : st.globals.enableCLI = false) (ht : e.evType = KEYUP)
    (hmap : env.SDL_KeyMap e.keyName = some s) :
    handleKeyboard env e st
      = (st, (if env.verboseKeyboard then verboseKeyboardMsgs e else [])
              ++ s.reverse.map Action.keyUp) := by
  simp [handleKeyboard, routeKey, hmode, ht, hmap, KEYUP_ne_KEYDOWN, keyUpLoop_eq_reverse]

/-- In MachineKeyboard mode a key without mapping makes no call on the keyboard. -/
theorem handleKeyboard_machine_unmapped (env : Env) (st : LoopState) (e : KeyboardEvent)
    (hmode : st.globals.enableCLI = false)
    (hmap : env.SDL_KeyMap e.keyName = none)
    (hesc : e.keyName ≠ "escape") (hf10 : e.keyName ≠ "f10") :
    handleKeyboard env e st
      = (st, if env.verboseKeyboard then verboseKeyboardMsgs e else []) := by
  simp [handleKeyboard, routeKey, hmode, hmap, hesc, hf10]

/-- The hotkey: `toggleCLI` and nothing else but diagnostics. -/
theorem handleKeyboard_f10 (env : Env) (st : LoopState) (e : KeyboardEvent)
    (hn : e.keyName = "f10") (ht : e.evType = KEYDOWN) :
    handleKeyboard env e st
      = ({ st with globals := toggleCLI st.globals },
          (if env.verboseKeyboard then verboseKeyboardMsgs e else [])
            ++ (if env.Verbose then [Action.printfMsg "f10 key -> toggle console"]
                else [])) := by
  simp [handleKeyboard, routeKey, hn, ht]

/-- The escape key. -/
theorem handleKeyboard_escape (env : Env) (st : LoopState) (e : KeyboardEvent)
    (hn : e.keyName = "escape") (ht : e.evType = KEYDOWN) :
    handleKeyboard env e st
      = (st, (if env.verboseKeyboard then verboseKeyboardMsgs e else [])
              ++ (if env.Verbose then
                    [Action.printfMsg "escape key -> request[exit the application]"]
                  else [])
              ++ [Action.requestExit]) := by
  simp [handleKeyboard, routeKey, hn, ht]

theorem toggleCLI_enableCLI (g : Globals) : (toggleCLI g).enableCLI = !g.enableCLI := by
  unfold toggleCLI
  cases h : g.enableCLI <;> simp [h]

/-- In ConsoleOverlay mode a key that is none of the seven special ones and carries a
non-zero unicode is forwarded to the character channel. -/
theorem handleKeyboard_console_char (env : Env) (st : LoopState) (e : KeyboardEvent)
    (hmode : st.globals.enableCLI = true) (hu : 0 < e.unicode)
    (h1 : e.keyName ≠ "escape") (h2 : e.keyName ≠ "f10") (h3 : e.keyName ≠ "left shift")
    (h4 : e.keyName ≠ "up") (h5 : e.keyName ≠ "down") (h6 : e.keyName ≠ "left")
    (h7 : e.keyName ≠ "right") :
    handleKeyboard env e st
      = (st, (if env.verboseKeyboard then verboseKeyboardMsgs e else [])
              ++ [Action.charCh
                    (if st.toUpper then toUint16 (env.ToUpper e.unicode) else e.unicode)]) := by
  cases hup : st.toUpper <;>
    simp [handleKeyboard, routeKey, hmode, hu, h1, h2, h3, h4, h5, h6, h7, hup]

theorem charsForwarded_append (a b : List Action) :
    charsForwarded (a ++ b) = charsForwarded a ++ charsForwarded b := by
  simp [charsForwarded]

theorem charsForwarded_log (env : Env) (e : KeyboardEvent) :
    charsForwarded (if env.verboseKeyboard then verboseKeyboardMsgs e else []) = [] := by
  split
  · simp [charsForwarded, verboseKeyboardMsgs]
  · rfl

theorem charsForwarded_map_keyDown (s : List Nat) :
    charsForwarded (s.map Action.keyDown) = [] := by
  simp [charsForwarded]

theorem consoleSends_append (a b : List Action) :
    consoleSends (a ++ b) = consoleSends a ++ consoleSends b := by
  simp [consoleSends]

theorem consoleSends_log (env : Env) (e : KeyboardEvent) :
    consoleSends (if env.verboseKeyboard then verboseKeyboardMsgs e else []) = [] := by
  split
  · simp [consoleSends, verboseKeyboardMsgs, List.filter_eq_nil_iff]
  · rfl

theorem exitRequests_append (a b : List Action) :
    exitRequests (a ++ b) = exitRequests a + exitRequests b := by
  simp [exitRequests]

theorem exitRequests_log (env : Env) (e : KeyboardEvent) :
    exitRequests (if env.verboseKeyboard then verboseKeyboardMsgs e else []) = 0 := by
  split
  · simp [exitRequests, verboseKeyboardMsgs, List.count_eq_zero]
  · rfl

theorem charsForwarded_map_keyUp (s : List Nat) :
    charsForwarded (s.map Action.keyUp) = [] := by
  simp [charsForwarded]

/-- In MachineKeyboard mode a key event other than a key-down of the two special keys leaves
the loop state, the shift flag included, as it was and sends no character to the console. -/
theorem handleKeyboard_machine_inert (env : Env) (st : LoopState) (e : KeyboardEvent)
    (hmode : st.globals.enableCLI = false)
    (hesc : e.keyName ≠ "escape") (hf10 : e.keyName ≠ "f10") :
    (handleKeyboard env e st).1 = st
    ∧ charsForwarded (handleKeyboard env e st).2 = [] := by
  cases hmap : env.SDL_KeyMap e.keyName with
  | none =>
    rw [handleKeyboard_machine_unmapped env st e hmode hmap hesc hf10]
    exact ⟨rfl, charsForwarded_log env e⟩
  | some s =>
    by_cases hd : e.evType = KEYDOWN
    · rw [handleKeyboard_machine_down env st e s hmode hd hmap hesc hf10]
      refine ⟨rfl, ?_⟩
      rw [charsForwarded_append, charsForwarded_log, charsForwarded_map_keyDown]
      rfl
    · by_cases hu : e.evType = KEYUP
      · rw [handleKeyboard_machine_up env st e s hmode hu hmap]
        refine ⟨rfl, ?_⟩
        rw [charsForwarded_append, charsForwarded_log, charsForwarded_map_keyUp]
        rfl
      · have h : handleKeyboard env e st
            = (st, if env.verboseKeyboard then verboseKeyboardMsgs e else []) := by
          simp [handleKeyboard, routeKey, hmode, hmap, hd, hu]
        rw [h]
        exact ⟨rfl, charsForwarded_log env e⟩

theorem flip_not_mem_log (env : Env) (e : KeyboardEvent) :
    Action.flip ∉ (if env.verboseKeyboard then verboseKeyboardMsgs e else []) := by
  split <;> simp [verboseKeyboardMsgs]

theorem charCh_not_mem_log (env : Env) (e : KeyboardEvent) (c : Nat) :
    Action.charCh c ∉ (if env.verboseKeyboard then verboseKeyboardMsgs e else []) := by
  split <;> simp [verboseKeyboardMsgs]

set_option maxHeartbeats 2000000 in
/-- No call made by `routeKey` is a `Flip`. -/
theorem mem_routeKey_ne_flip (env : Env) (e : KeyboardEvent) (st : LoopState) (a : Action)
    (hc : a ∈ (routeKey env e st).2) : a ≠ Action.flip := by
  unfold routeKey at hc
  simp only at hc
  split_ifs at hc <;> (try split at hc) <;>
    simp_all [keyDownLoop_zero, keyUpLoop_eq_reverse]
  all_goals
    intro hf
    subst hf
    simp at hc

theorem flip_not_mem_routeKey (env : Env) (e : KeyboardEvent) (st : LoopState) :
    Action.flip ∉ (routeKey env e st).2 :=
  fun hc => mem_routeKey_ne_flip env e st Action.flip hc rfl

/-- No branch of `routeKey` clears the shift flag. -/
theorem routeKey_toUpper_sticky (env : Env) (e : KeyboardEvent) (st : LoopState)
    (h : st.toUpper = true) : (routeKey env e st).1.toUpper = true := by
  unfold routeKey
  simp only
  split_ifs <;> (try split) <;> simp [h]

/-- With the shift flag set, a character that `routeKey` sends to the console is the
upper-cased non-zero unicode of the event. -/
theorem routeKey_chars_upper (env : Env) (e : KeyboardEvent) (st : LoopState)
    (h : st.toUpper = true) (c : Nat) (hc : Action.charCh c ∈ (routeKey env e st).2) :
    0 < e.unicode ∧ c = toUint16 (env.ToUpper e.unicode) := by
  unfold routeKey at hc
  simp only at hc
  split_ifs at hc <;> (try split at hc) <;>
    simp_all [keyDownLoop_zero, keyUpLoop_eq_reverse]

theorem flip_not_mem_handleKeyboard (env : Env) (e : KeyboardEvent) (st : LoopState) :
    Action.flip ∉ (handleKeyboard env e st).2 := by
  simp only [handleKeyboard, List.mem_append, not_or]
  exact ⟨flip_not_mem_log env e, flip_not_mem_routeKey env e st⟩

theorem handleKeyboard_toUpper_sticky (env : Env) (e : KeyboardEvent) (st : LoopState)
    (h : st.toUpper = true) : (handleKeyboard env e st).1.toUpper = true :=
  routeKey_toUpper_sticky env e st h

theorem handleKeyboard_chars_upper (env : Env) (e : KeyboardEvent) (st : LoopState)
    (h : st.toUpper = true) (c : Nat) (hc : Action.charCh c ∈ (handleKeyboard env e st).2) :
    0 < e.unicode ∧ c = toUint16 (env.ToUpper e.unicode) := by
  simp only [handleKeyboard, List.mem_append] at hc
  rcases hc with hc | hc
  · exact absurd hc (charCh_not_mem_log env e c)
  · exact routeKey_chars_upper env e st h c hc

theorem flip_not_mem_handleEvent (env : Env) (ev : Event) (st : LoopState) :
    Action.flip ∉ (handleEvent env ev st).2 := by
  cases ev with
  | quit => cases hv : env.Verbose <;> simp [handleEvent, hv]
  | keyboard e => exact flip_not_mem_handleKeyboard env e st
  | other => simp [handleEvent]

theorem iteration_toUpper_sticky (env : Env) (b : Branch) (st : LoopState)
    (h : st.toUpper = true) : (iteration env b st).1.toUpper = true := by
  cases b with
  | pause => exact h
  | terminate => exact h
  | event ev =>
    cases ev with
    | quit => exact h
    | keyboard e => exact handleKeyboard_toUpper_sticky env e st h
    | other => exact h
  | default => exact h

theorem iteration_chars_upper (env : Env) (b : Branch) (st : LoopState)
    (h : st.toUpper = true) (c : Nat) (hc : Action.charCh c ∈ (iteration env b st).2.1) :
    ∃ k, b = keyBranch k ∧ 0 < k.unicode ∧ c = toUint16 (env.ToUpper k.unicode) := by
  cases b with
  | pause => simp [iteration] at hc
  | terminate =>
    cases hv : env.Verbose <;> simp [iteration, hv] at hc
  | event ev =>
    cases ev with
    | quit => cases hv : env.Verbose <;> simp [iteration, handleEvent, hv] at hc
    | keyboard e => exact ⟨e, rfl, handleKeyboard_chars_upper env e st h c hc⟩
    | other => simp [iteration, handleEvent] at hc
  | default =>
    exfalso
    simp only [iteration, render] at hc
    split at hc
    · simp only [List.mem_append, List.mem_singleton] at hc
      rcases hc with (hc | hc) | hc
      · split at hc
        · split at hc <;> simp at hc
        · simp at hc
      · split at hc <;> simp at hc
      · simp at hc
    · simp at hc

/-- Once set, the shift flag is still set after any run of the loop. -/
theorem runLoop_toUpper_sticky (env : Env) (bs : List Branch) (st : LoopState)
    (h : st.toUpper = true) : (runLoop env bs st).1.toUpper = true := by
  induction bs generalizing st with
  | nil => exact h
  | cons b bs ih =>
    have hb := iteration_toUpper_sticky env b st h
    simp only [runLoop]
    split
    · exact ih _ hb
    · exact hb

/-- With the shift flag set, every character a run of the loop sends to the console is the
upper-cased non-zero unicode of one of its keyboard events. -/
theorem runLoop_chars_upper (env : Env) (bs : List Branch) (st : LoopState)
    (h : st.toUpper = true) (c : Nat) (hc : Action.charCh c ∈ (runLoop env bs st).2) :
    ∃ k, keyBranch k ∈ bs ∧ 0 < k.unicode ∧ c = toUint16 (env.ToUpper k.unicode) := by
  induction bs generalizing st with
  | nil => simp [runLoop] at hc
  | cons b bs ih =>
    have hb := iteration_toUpper_sticky env b st h
    simp only [runLoop] at hc
    split at hc
    · simp only [List.mem_append] at hc
      rcases hc with hc | hc
      · obtain ⟨k, hk, hrest⟩ := iteration_chars_upper env b st h c hc
        exact ⟨k, by simp [hk], hrest⟩
      · obtain ⟨k, hk, hrest⟩ := ih _ hb hc
        exact ⟨k, List.mem_cons_of_mem _ hk, hrest⟩
    · obtain ⟨k, hk, hrest⟩ := iteration_chars_upper env b st h c hc
      exact ⟨k, by simp [hk], hrest⟩

/-! ## Lemmas on `render` and `toggleCLI` -/

theorem wrapInt16_of_range (x : Int) (h1 : -32768 ≤ x) (h2 : x ≤ 32767) :
    wrapInt16 x = x := by
  unfold wrapInt16
  omega

/-- The globals `render` leaves. -/
theorem render_fst (g : Globals) :
    (render g).1 =
      if g.sdlInitComplete then
        (if g.enableCLI then
          (if g.cliY > 240 then { g with cliY := wrapInt16 (g.cliY - 1) } else g)
         else
          (if g.cliY > 480 then { g with cliRenderer := none }
           else { g with cliY := wrapInt16 (g.cliY + 1) }))
      else g := by
  unfold render
  split <;> rfl

/-- The frames `render` presents. -/
theorem flips_render (g : Globals) :
    flips (render g).2 = if g.sdlInitComplete then 1 else 0 := by
  unfold render flips
  split
  · simp only [List.count_append]
    have h1 : ∀ o : Option SDLScreen2x, List.count Action.flip
        (match o with
          | some scr =>
            (match scr.surface with
             | some _ => [Action.blitScreen]
             | none => [])
          | none => []) = 0 := by
      intro o
      cases o with
      | none => rfl
      | some scr => cases hs : scr.surface <;> simp [hs]
    have h2 : ∀ (o : Option SDLRenderer) (y : Int), List.count Action.flip
        (match o with
          | some _ => [Action.blitCLI y]
          | none => []) = 0 := by
      intro o y
      cases o <;> simp
    rw [h1, h2]
    simp
  · rfl

theorem render_of_not_init (g : Globals) (h : g.sdlInitComplete = false) :
    render g = (g, []) := by
  simp [render, h]

theorem render_enabled_move (g : Globals) (hi : g.sdlInitComplete = true)
    (he : g.enableCLI = true) (hlo : 240 < g.cliY) (hhi : g.cliY ≤ 32768) :
    (render g).1 = { g with cliY := g.cliY - 1 } := by
  rw [render_fst, hi, he, wrapInt16_of_range (g.cliY - 1) (by omega) (by omega)]
  simp [hlo]

theorem render_enabled_rest (g : Globals) (hi : g.sdlInitComplete = true)
    (he : g.enableCLI = true) (hlo : g.cliY ≤ 240) : (render g).1 = g := by
  rw [render_fst, hi, he]
  simp [hlo]

theorem render_disabled_move (g : Globals) (hi : g.sdlInitComplete = true)
    (he : g.enableCLI = false) (hlo : -32769 ≤ g.cliY) (hhi : g.cliY ≤ 480) :
    (render g).1 = { g with cliY := g.cliY + 1 } := by
  rw [render_fst, hi, he, wrapInt16_of_range (g.cliY + 1) (by omega) (by omega)]
  simp [hhi]

theorem render_disabled_release (g : Globals) (hi : g.sdlInitComplete = true)
    (he : g.enableCLI = false) (hhi : 480 < g.cliY) :
    (render g).1 = { g with cliRenderer := none } := by
  rw [render_fst, hi, he]
  simp [hhi]

theorem toggleCLI_cliY (g : Globals) : (toggleCLI g).cliY = g.cliY := by
  unfold toggleCLI
  cases h : g.enableCLI <;> simp [h]

theorem toggleCLI_cliRenderer_of_some (g : Globals) (h : g.cliRenderer ≠ none) :
    (toggleCLI g).cliRenderer ≠ none := by
  unfold toggleCLI
  cases he : g.enableCLI <;> simp [he, h]

/-- Every step keeps the offset between 240 and 481. -/
theorem step_keeps_bounds (s : Step) (g : Globals)
    (h : 240 ≤ g.cliY ∧ g.cliY ≤ 481) :
    240 ≤ (s.run g).cliY ∧ (s.run g).cliY ≤ 481 := by
  cases s with
  | toggleCLI =>
    show 240 ≤ (toggleCLI g).cliY ∧ (toggleCLI g).cliY ≤ 481
    rw [toggleCLI_cliY]
    exact h
  | initComplete => exact h
  | render =>
    show 240 ≤ (render g).1.cliY ∧ (render g).1.cliY ≤ 481
    cases hi : g.sdlInitComplete with
    | false => rw [render_of_not_init g hi]; exact h
    | true =>
      cases he : g.enableCLI with
      | true =>
        by_cases hlo : 240 < g.cliY
        · rw [render_enabled_move g hi he hlo (by omega)]
          simp only
          omega
        · rw [render_enabled_rest g hi he (by omega)]
          exact h
      | false =>
        by_cases hhi : 480 < g.cliY
        · rw [render_disabled_release g hi he hhi]
          exact h
        · rw [render_disabled_move g hi he (by omega) (by omega)]
          simp only
          omega

theorem runSteps_keeps_bounds (steps : List Step) (g : Globals)
    (h : 240 ≤ g.cliY ∧ g.cliY ≤ 481) :
    240 ≤ (runSteps steps g).cliY ∧ (runSteps steps g).cliY ≤ 481 := by
  induction steps generalizing g with
  | nil => exact h
  | cons s ss ih => exact ih (s.run g) (step_keeps_bounds s g h)

/-- A render tick moves an in-range offset down or not at all while enabled, up or not at
all while disabled. -/
theorem render_monotone (g : Globals) (h : 240 ≤ g.cliY ∧ g.cliY ≤ 481) :
    (g.enableCLI = true → (render g).1.cliY ≤ g.cliY)
    ∧ (g.enableCLI = false → g.cliY ≤ (render g).1.cliY) := by
  cases hi : g.sdlInitComplete with
  | false => rw [render_of_not_init g hi]; simp
  | true =>
    constructor
    · intro he
      by_cases hlo : 240 < g.cliY
      · rw [render_enabled_move g hi he hlo (by omega)]
        simp only
        omega
      · rw [render_enabled_rest g hi he (by omega)]
    · intro he
      by_cases hhi : 480 < g.cliY
      · rw [render_disabled_release g hi he hhi]
      · rw [render_disabled_move g hi he (by omega) (by omega)]
        simp only
        omega

theorem renderTicks_add (a b : Nat) (g : Globals) :
    renderTicks (a + b) g = renderTicks b (renderTicks a g) := by
  induction a generalizing g with
  | zero => simp [renderTicks]
  | succ a ih =>
    rw [Nat.succ_add]
    exact ih (render g).1

theorem renderTicks_fixed (n : Nat) (g : Globals) (h : (render g).1 = g) :
    renderTicks n g = g := by
  induction n with
  | zero => rfl
  | succ n ih =>
    show renderTicks n (render g).1 = g
    rw [h, ih]

/-- While enabled, `k` ticks lower the offset by `k`, as long as it stays at or above 240. -/
theorem renderTicks_enabled_descend (k : Nat) (g : Globals)
    (hi : g.sdlInitComplete = true) (he : g.enableCLI = true)
    (hk : (k : Int) ≤ g.cliY - 240) (hhi : g.cliY ≤ 481) :
    renderTicks k g = { g with cliY := g.cliY - k } := by
  induction k generalizing g with
  | zero => simp [renderTicks]
  | succ k ih =>
    show renderTicks k (render g).1 = _
    rw [render_enabled_move g hi he (by omega) (by omega)]
    rw [ih { g with cliY := g.cliY - 1 } hi he (by simp only; omega) (by simp only; omega)]
    simp only [Globals.mk.injEq, true_and]
    push_cast
    omega

/-- While disabled, `k` ticks raise the offset by `k`, as long as it stays at or below
481. -/
theorem renderTicks_disabled_ascend (k : Nat) (g : Globals)
    (hi : g.sdlInitComplete = true) (he : g.enableCLI = false)
    (hk : (k : Int) ≤ 481 - g.cliY) (hlo : 240 ≤ g.cliY) :
    renderTicks k g = { g with cliY := g.cliY + k } := by
  induction k generalizing g with
  | zero => simp [renderTicks]
  | succ k ih =>
    show renderTicks k (render g).1 = _
    rw [render_disabled_move g hi he (by omega) (by omega)]
    rw [ih { g with cliY := g.cliY + 1 } hi he (by simp only; omega) (by simp only; omega)]
    simp only [Globals.mk.injEq, true_and]
    push_cast
    omega

/-- Every step keeps the renderer allocated while the console is enabled. -/
theorem step_keeps_enabled_allocated (s : Step) (g : Globals)
    (h : g.enableCLI = true → g.cliRenderer ≠ none) :
    (s.run g).enableCLI = true → (s.run g).cliRenderer ≠ none := by
  cases s with
  | toggleCLI =>
    simp only [Step.run, toggleCLI]
    cases he : g.enableCLI <;> simp
  | initComplete => exact h
  | render =>
    simp only [Step.run, render_fst]
    split_ifs <;> simp_all

theorem runSteps_keeps_enabled_allocated (steps : List Step) (g : Globals)
    (h : g.enableCLI = true → g.cliRenderer ≠ none) :
    (runSteps steps g).enableCLI = true → (runSteps steps g).cliRenderer ≠ none := by
  induction steps generalizing g with
  | nil => exact h
  | cons s ss ih => exact ih (s.run g) (step_keeps_enabled_allocated s g h)

/-! ## The two special keys in MachineKeyboard mode -/

/-- Whatever the key table, in MachineKeyboard mode the key-down of "escape" presses
nothing; if the table maps "escape" to `s`, the key-up releases the codes of `s`. -/
theorem escape_down_up_calls (env : Env) (st : LoopState) (d u : KeyboardEvent)
    (s : List Nat) (hmode : st.globals.enableCLI = false)
    (hd : d.keyName = "escape") (hdt : d.evType = KEYDOWN)
    (hu : u.keyName = "escape") (hut : u.evType = KEYUP)
    (hmap : env.SDL_KeyMap "escape" = some s) :
    keyboardCalls (runLoop env [keyBranch d, keyBranch u] st).2
      = (s.reverse).map Action.keyUp := by
  have hdown := handleKeyboard_escape env st d hd hdt
  have hup := handleKeyboard_machine_up env st u s hmode hut (by rw [hu]; exact hmap)
  simp only [runLoop, iteration, keyBranch, handleEvent, hdown, hup, if_true,
    List.append_nil, keyboardCalls_append, keyboardCalls_log, List.nil_append,
    keyboardCalls_map_keyUp]
  cases env.Verbose <;> simp [keyboardCalls]

/-- Whatever the key table, in MachineKeyboard mode the key-down of "f10" switches to
ConsoleOverlay mode and presses nothing, and the key-up, handled in ConsoleOverlay mode,
releases nothing. -/
theorem f10_down_up_calls (env : Env) (st : LoopState) (d u : KeyboardEvent)
    (hmode : st.globals.enableCLI = false)
    (hd : d.keyName = "f10") (hdt : d.evType = KEYDOWN)
    (hu : u.keyName = "f10") (hut : u.evType = KEYUP) :
    keyboardCalls (runLoop env [keyBranch d, keyBranch u] st).2 = []
    ∧ (runLoop env [keyBranch d, keyBranch u] st).1.globals.enableCLI = true := by
  have hdown := handleKeyboard_f10 env st d hd hdt
  have hmode2 : (toggleCLI st.globals).enableCLI = true := by
    rw [toggleCLI_enableCLI, hmode]
    rfl
  have hup : (handleKeyboard env u { st with globals := toggleCLI st.globals }).1
        = { st with globals := toggleCLI st.globals }
      ∧ keyboardCalls
          (handleKeyboard env u { st with globals := toggleCLI st.globals }).2 = [] := by
    simp only [handleKeyboard, keyboardCalls_append, keyboardCalls_log, List.nil_append]
    by_cases h0 : u.unicode > 0 <;> cases hflag : st.toUpper <;>
      simp [routeKey, hu, hut, KEYUP_ne_KEYDOWN, hmode2, h0, hflag, keyboardCalls]
  simp only [runLoop, iteration, keyBranch, handleEvent, hdown, if_true, List.append_nil,
    keyboardCalls_append, keyboardCalls_log, List.nil_append, hup.1, hup.2]
  refine ⟨?_, hmode2⟩
  cases env.Verbose <;> simp [keyboardCalls]

/-- For a key table that maps neither "escape" nor "f10", every mapped key is pressed in
forward order and released in reverse order. -/
theorem press_release_when_special_keys_unmapped (env : Env) (st : LoopState)
    (d u : KeyboardEvent) (s : List Nat)
    (hesc : env.SDL_KeyMap "escape" = none) (hf10 : env.SDL_KeyMap "f10" = none)
    (hmode : st.globals.enableCLI = false)
    (hd : d.evType = KEYDOWN) (hu : u.evType = KEYUP) (hname : u.keyName = d.keyName)
    (hmap : env.SDL_KeyMap d.keyName = some s) :
    keyboardCalls (runLoop env [keyBranch d, keyBranch u] st).2
      = s.map Action.keyDown ++ (s.reverse).map Action.keyUp := by
  have h1 : d.keyName ≠ "escape" := by
    intro h
    rw [h, hesc] at hmap
    exact absurd hmap (by simp)
  have h2 : d.keyName ≠ "f10" := by
    intro h
    rw [h, hf10] at hmap
    exact absurd hmap (by simp)
  have hdown := handleKeyboard_machine_down env st d s hmode hd hmap h1 h2
  have hup := handleKeyboard_machine_up env st u s hmode hu (by rw [hname]; exact hmap)
  simp only [runLoop, iteration, keyBranch, handleEvent, hdown, hup, if_true,
    List.append_nil, keyboardCalls_append, keyboardCalls_log, List.nil_append,
    keyboardCalls_map_keyDown, keyboardCalls_map_keyUp]

/-! ## A concrete run -/

/-- With the upper-casing of ASCII letters: console opened, "left shift" pressed in
ConsoleOverlay mode, then the key "a": the character sent to the console is 65. -/
theorem shift_in_console_uppercases_example :
    charsForwarded (runLoop asciiEnv
        [keyBranch (mkKey KEYDOWN "f10" 0), keyBranch (mkKey KEYDOWN "left shift" 0),
         keyBranch (mkKey KEYDOWN "a" 97)] (LoopState.start initGlobals)).2 = [65] := by
  have h1 := handleKeyboard_f10 asciiEnv (LoopState.start initGlobals)
    (mkKey KEYDOWN "f10" 0) rfl rfl
  have h2 : handleKeyboard asciiEnv (mkKey KEYDOWN "left shift" 0)
      { globals := toggleCLI initGlobals, toUpper := false }
      = ({ globals := toggleCLI initGlobals, toUpper := true }, []) := by
    simp [handleKeyboard, routeKey, mkKey, asciiEnv, toggleCLI, initGlobals]
  have h3 := handleKeyboard_console_char asciiEnv
    { globals := toggleCLI initGlobals, toUpper := true }
    (mkKey KEYDOWN "a" 97) rfl (by decide) (by decide) (by decide) (by decide) (by decide)
    (by decide) (by decide) (by decide)
  simp only [LoopState.start] at h1
  simp only [runLoop, iteration, keyBranch, handleEvent, LoopState.start, h1, h2, h3]
  simp [charsForwarded, asciiEnv, mkKey, toUint16]

/-! ## The claims -/

/-- C1, as stated, fails for a key table that maps "escape" or "f10", the two keys the loop
tests for before it consults the table.  In MachineKeyboard mode, with "escape" mapped to
the codes 1, 2: the key-down requests exit and presses nothing, the key-up releases 2 and 1
that were never pressed.  With "f10" mapped to the codes 3, 4: the key-down toggles the
console and the key-up is handled in ConsoleOverlay mode, so no code is pressed or
released.  Hence the claim, read for every key table, is false. -/
theorem C1_special_keys_mapped_counterexample :
    (composedKeysEnv.SDL_KeyMap "escape" = some [1, 2]
      ∧ (LoopState.start initGlobals).globals.enableCLI = false
      ∧ keyboardCalls (runLoop composedKeysEnv
            [keyBranch (mkKey KEYDOWN "escape" 27), keyBranch (mkKey KEYUP "escape" 27)]
            (LoopState.start initGlobals)).2 = [Action.keyUp 2, Action.keyUp 1]
      ∧ keyboardCalls (runLoop composedKeysEnv
            [keyBranch (mkKey KEYDOWN "escape" 27), keyBranch (mkKey KEYUP "escape" 27)]
            (LoopState.start initGlobals)).2
          ≠ [Action.keyDown 1, Action.keyDown 2, Action.keyUp 2, Action.keyUp 1])
    ∧ (composedKeysEnv.SDL_KeyMap "f10" = some [3, 4]
      ∧ keyboardCalls (runLoop composedKeysEnv
            [keyBranch (mkKey KEYDOWN "f10" 0), keyBranch (mkKey KEYUP "f10" 0)]
            (LoopState.start initGlobals)).2 = []
      ∧ keyboardCalls (runLoop composedKeysEnv
            [keyBranch (mkKey KEYDOWN "f10" 0), keyBranch (mkKey KEYUP "f10" 0)]
            (LoopState.start initGlobals)).2
          ≠ [Action.keyDown 3, Action.keyDown 4, Action.keyUp 4, Action.keyUp 3])
    ∧ ¬ (∀ (env : Env) (st : LoopState) (d u : KeyboardEvent) (s : List Nat),
          st.globals.enableCLI = false → d.evType = KEYDOWN → u.evType = KEYUP →
          u.keyName = d.keyName → env.SDL_KeyMap d.keyName = some s →
          keyboardCalls (runLoop env [keyBranch d, keyBranch u] st).2
            = s.map Action.keyDown ++ (s.reverse).map Action.keyUp) := by
  have hesc : keyboardCalls (runLoop composedKeysEnv
        [keyBranch (mkKey KEYDOWN "escape" 27), keyBranch (mkKey KEYUP "escape" 27)]
        (LoopState.start initGlobals)).2 = [Action.keyUp 2, Action.keyUp 1] :=
    escape_down_up_calls composedKeysEnv (LoopState.start initGlobals)
      (mkKey KEYDOWN "escape" 27) (mkKey KEYUP "escape" 27) [1, 2] rfl rfl rfl rfl rfl rfl
  have hf10 : keyboardCalls (runLoop composedKeysEnv
        [keyBranch (mkKey KEYDOWN "f10" 0), keyBranch (mkKey KEYUP "f10" 0)]
        (LoopState.start initGlobals)).2 = [] :=
    (f10_down_up_calls composedKeysEnv (LoopState.start initGlobals)
      (mkKey KEYDOWN "f10" 0) (mkKey KEYUP "f10" 0) rfl rfl rfl rfl rfl).1
  refine ⟨⟨rfl, rfl, hesc, ?_⟩, ⟨by decide, hf10, ?_⟩, ?_⟩
  · rw [hesc]
    decide
  · rw [hf10]
    decide
  · intro hall
    have h := hall composedKeysEnv (LoopState.start initGlobals)
      (mkKey KEYDOWN "f10" 0) (mkKey KEYUP "f10" 0) [3, 4] rfl rfl rfl rfl (by decide)
    rw [hf10] at h
    exact absurd h (by decide)

/-- C1 (amended): in MachineKeyboard mode, for every key name other than "escape" and "f10"
that the key table maps to a sequence `s`, a key-down followed by a key-up of that key makes
on the machine keyboard exactly the calls `KeyDown` of the codes of `s` in forward order,
then `KeyUp` of the codes of `s` in reverse order, and leaves the loop state as it was. -/
theorem C1_key_press_then_release (env : Env) (st : LoopState) (d u : KeyboardEvent)
    (s : List Nat)
    (hmode : st.globals.enableCLI = false)
    (hd : d.evType = KEYDOWN) (hu : u.evType = KEYUP) (hname : u.keyName = d.keyName)
    (hmap : env.SDL_KeyMap d.keyName = some s)
    (hesc : d.keyName ≠ "escape") (hf10 : d.keyName ≠ "f10") :
    keyboardCalls (runLoop env [keyBranch d, keyBranch u] st).2
        = s.map Action.keyDown ++ (s.reverse).map Action.keyUp
    ∧ (runLoop env [keyBranch d, keyBranch u] st).1 = st := by
  have hdown := handleKeyboard_machine_down env st d s hmode hd hmap hesc hf10
  have hup := handleKeyboard_machine_up env st u s hmode hu (by rw [hname]; exact hmap)
  simp only [runLoop, iteration, keyBranch, handleEvent, hdown, hup, if_true, and_true,
    List.append_nil, keyboardCalls_append, keyboardCalls_log, List.nil_append,
    keyboardCalls_map_keyDown, keyboardCalls_map_keyUp]

/-- Witness for C1: the key "left", mapped to the three codes 5, 6, 7, pressed and released:
5, 6, 7 are pressed in this order, then 7, 6, 5 released in this order. -/
theorem C1_key_press_then_release_witness :
    composedKeysEnv.SDL_KeyMap "left" = some [5, 6, 7]
    ∧ keyboardCalls (runLoop composedKeysEnv
        [keyBranch (mkKey KEYDOWN "left" 0), keyBranch (mkKey KEYUP "left" 0)]
        (LoopState.start initGlobals)).2
        = [Action.keyDown 5, Action.keyDown 6, Action.keyDown 7,
           Action.keyUp 7, Action.keyUp 6, Action.keyUp 5]
    ∧ (runLoop composedKeysEnv
        [keyBranch (mkKey KEYDOWN "left" 0), keyBranch (mkKey KEYUP "left" 0)]
        (LoopState.start initGlobals)).1 = LoopState.start initGlobals :=
  ⟨by decide,
   C1_key_press_then_release composedKeysEnv (LoopState.start initGlobals)
    (mkKey KEYDOWN "left" 0) (mkKey KEYUP "left" 0) [5, 6, 7] rfl rfl rfl rfl
    (by decide) (by decide) (by decide)⟩

/-- C2, as stated, fails: one render tick from the initial globals (with initialisation
complete) moves the offset from 480 to 481, above the bound 480. -/
theorem C2_offset_exceeds_480_counterexample :
    readyGlobals = runSteps [Step.initComplete] initGlobals
    ∧ readyGlobals.enableCLI = false ∧ readyGlobals.cliY = 480
    ∧ (runSteps [Step.render] readyGlobals).cliY = 481
    ∧ ¬ (runSteps [Step.render] readyGlobals).cliY ≤ 480 := by
  have h : (runSteps [Step.render] readyGlobals).cliY = 481 := by
    show (render readyGlobals).1.cliY = 481
    rw [render_disabled_move readyGlobals rfl rfl (by decide) (by decide)]
    rfl
  refine ⟨rfl, rfl, rfl, h, ?_⟩
  rw [h]
  decide

/-- C2 (amended): in every state reached from globals with `cliY = 480` (the initial ones
among them) by any succession of render ticks, `toggleCLI` calls and the end of the
initialisation, `cliY` is between 240 and 481, a render tick does not increase `cliY` while
`enableCLI` is true and does not decrease it while `enableCLI` is false. -/
theorem C2_offset_stays_in_240_481 (g0 : Globals) (steps : List Step)
    (hy : g0.cliY = 480) :
    240 ≤ (runSteps steps g0).cliY ∧ (runSteps steps g0).cliY ≤ 481
    ∧ ((runSteps steps g0).enableCLI = true →
        (render (runSteps steps g0)).1.cliY ≤ (runSteps steps g0).cliY)
    ∧ ((runSteps steps g0).enableCLI = false →
        (runSteps steps g0).cliY ≤ (render (runSteps steps g0)).1.cliY) := by
  have hb := runSteps_keeps_bounds steps g0 (by omega)
  have hm := render_monotone (runSteps steps g0) hb
  exact ⟨hb.1, hb.2, hm.1, hm.2⟩

/-- Witness for C2: console opened, two ticks, console closed, one tick. -/
theorem C2_offset_stays_in_240_481_witness :
    240 ≤ (runSteps [Step.toggleCLI, Step.render, Step.render, Step.toggleCLI, Step.render]
        readyGlobals).cliY
    ∧ (runSteps [Step.toggleCLI, Step.render, Step.render, Step.toggleCLI, Step.render]
        readyGlobals).cliY ≤ 481
    ∧ ((runSteps [Step.toggleCLI, Step.render, Step.render, Step.toggleCLI, Step.render]
        readyGlobals).enableCLI = true →
        (render (runSteps
          [Step.toggleCLI, Step.render, Step.render, Step.toggleCLI, Step.render]
          readyGlobals)).1.cliY
        ≤ (runSteps [Step.toggleCLI, Step.render, Step.render, Step.toggleCLI, Step.render]
          readyGlobals).cliY)
    ∧ ((runSteps [Step.toggleCLI, Step.render, Step.render, Step.toggleCLI, Step.render]
        readyGlobals).enableCLI = false →
        (runSteps [Step.toggleCLI, Step.render, Step.render, Step.toggleCLI, Step.render]
          readyGlobals).cliY
        ≤ (render (runSteps
          [Step.toggleCLI, Step.render, Step.render, Step.toggleCLI, Step.render]
          readyGlobals)).1.cliY) :=
  C2_offset_stays_in_240_481 readyGlobals
    [Step.toggleCLI, Step.render, Step.render, Step.toggleCLI, Step.render] rfl

/-- C3, as stated, fails: console opened, one tick, console closed, one tick: the offset is
back at 480 with `enableCLI` false and the renderer allocated, and the next render tick
does not release the renderer (it moves the offset to 481). -/
theorem C3_no_release_at_480_counterexample :
    (runSteps [Step.toggleCLI, Step.render, Step.toggleCLI, Step.render]
        readyGlobals).enableCLI = false
    ∧ (runSteps [Step.toggleCLI, Step.render, Step.toggleCLI, Step.render]
        readyGlobals).cliY = 480
    ∧ (runSteps [Step.toggleCLI, Step.render, Step.toggleCLI, Step.render]
        readyGlobals).cliRenderer ≠ none
    ∧ (Step.render.run (runSteps [Step.toggleCLI, Step.render, Step.toggleCLI, Step.render]
        readyGlobals)).cliRenderer ≠ none := by
  have h : runSteps [Step.toggleCLI, Step.render, Step.toggleCLI, Step.render] readyGlobals
      = { sdlScreen := none,
          cliRenderer := some { width := 640, height := 240, alpha := 0xaa },
          cli := some { prompt := "gospeccy> " },
          sdlInitComplete := true, enableCLI := false, cliAnimation := false,
          cliY := 480 } := by
    simp [runSteps, Step.run, render_fst, toggleCLI, readyGlobals, initGlobals, wrapInt16]
  rw [h]
  refine ⟨rfl, rfl, by simp, ?_⟩
  simp [Step.run, render_fst]

/-- C3 (amended): for every state in which the overlay renderer is allocated and every step
(render tick, `toggleCLI` call, end of initialisation), the step sets `cliRenderer` to nil
if and only if it is a render tick taken with `sdlInitComplete` true, `enableCLI` false and
`cliY` above 480 (that is at 481, one tick after the offset reached 480); no step releases
it while `enableCLI` is true or while `cliY` is at most 480, and `toggleCLI` does not. -/
theorem C3_release_iff_disabled_past_480 (g : Globals) (s : Step)
    (halloc : g.cliRenderer ≠ none) :
    (s.run g).cliRenderer = none
      ↔ (s = Step.render ∧ g.sdlInitComplete = true ∧ g.enableCLI = false
          ∧ 480 < g.cliY) := by
  cases s with
  | toggleCLI =>
    have h := toggleCLI_cliRenderer_of_some g halloc
    simp only [Step.run]
    constructor
    · intro h2
      exact absurd h2 h
    · intro h2
      exact absurd h2.1 (by decide)
  | initComplete =>
    simp only [Step.run]
    constructor
    · intro h2
      exact absurd h2 halloc
    · intro h2
      exact absurd h2.1 (by decide)
  | render =>
    simp only [Step.run, render_fst, true_and]
    cases hi : g.sdlInitComplete <;> cases he : g.enableCLI <;>
      by_cases hlo : 240 < g.cliY <;> by_cases hhi : 480 < g.cliY <;>
      simp [hlo, hhi, halloc]

/-- Witness for C3: the renderer allocated by one `toggleCLI`, then a render tick. -/
theorem C3_release_iff_disabled_past_480_witness :
    (Step.render.run (toggleCLI readyGlobals)).cliRenderer = none
      ↔ (Step.render = Step.render ∧ (toggleCLI readyGlobals).sdlInitComplete = true
          ∧ (toggleCLI readyGlobals).enableCLI = false
          ∧ 480 < (toggleCLI readyGlobals).cliY) :=
  C3_release_iff_disabled_past_480 (toggleCLI readyGlobals) Step.render (by decide)

/-- C4: a hotkey ("f10") key-down does what `toggleCLI` does and flips `enableCLI`, hence
the input mode, whatever the state; two consecutive hotkey key-downs, equivalently two
calls of `toggleCLI`, give back the original `enableCLI` and the original input mode. -/
theorem C4_hotkey_twice_restores_mode (env : Env) (st : LoopState) (e1 e2 : KeyboardEvent)
    (hn1 : e1.keyName = "f10") (ht1 : e1.evType = KEYDOWN)
    (hn2 : e2.keyName = "f10") (ht2 : e2.evType = KEYDOWN) :
    (iteration env (keyBranch e1) st).1.globals = toggleCLI st.globals
    ∧ (iteration env (keyBranch e1) st).1.globals.enableCLI = !st.globals.enableCLI
    ∧ inputMode (iteration env (keyBranch e1) st).1.globals ≠ inputMode st.globals
    ∧ (runLoop env [keyBranch e1, keyBranch e2] st).1.globals
        = toggleCLI (toggleCLI st.globals)
    ∧ (runLoop env [keyBranch e1, keyBranch e2] st).1.globals.enableCLI
        = st.globals.enableCLI
    ∧ inputMode (runLoop env [keyBranch e1, keyBranch e2] st).1.globals
        = inputMode st.globals := by
  have hone : (iteration env (keyBranch e1) st).1.globals = toggleCLI st.globals := by
    simp only [iteration, keyBranch, handleEvent, handleKeyboard_f10 env st e1 hn1 ht1]
  have htwo : (runLoop env [keyBranch e1, keyBranch e2] st).1.globals
      = toggleCLI (toggleCLI st.globals) := by
    simp only [runLoop, iteration, keyBranch, handleEvent,
      handleKeyboard_f10 env st e1 hn1 ht1, handleKeyboard_f10 env _ e2 hn2 ht2, if_true]
  refine ⟨hone, ?_, ?_, htwo, ?_, ?_⟩
  · rw [hone, toggleCLI_enableCLI]
  · rw [hone]
    unfold inputMode
    rw [toggleCLI_enableCLI]
    cases st.globals.enableCLI <;> simp
  · rw [htwo, toggleCLI_enableCLI, toggleCLI_enableCLI, Bool.not_not]
  · rw [htwo]
    unfold inputMode
    rw [toggleCLI_enableCLI, toggleCLI_enableCLI, Bool.not_not]

/-- Witness for C4: two hotkey key-downs from the start state. -/
theorem C4_hotkey_twice_restores_mode_witness :
    (iteration asciiEnv (keyBranch (mkKey KEYDOWN "f10" 0))
        (LoopState.start initGlobals)).1.globals = toggleCLI initGlobals
    ∧ (iteration asciiEnv (keyBranch (mkKey KEYDOWN "f10" 0))
        (LoopState.start initGlobals)).1.globals.enableCLI = !initGlobals.enableCLI
    ∧ inputMode (iteration asciiEnv (keyBranch (mkKey KEYDOWN "f10" 0))
        (LoopState.start initGlobals)).1.globals ≠ inputMode initGlobals
    ∧ (runLoop asciiEnv [keyBranch (mkKey KEYDOWN "f10" 0), keyBranch (mkKey KEYDOWN "f10" 0)]
        (LoopState.start initGlobals)).1.globals = toggleCLI (toggleCLI initGlobals)
    ∧ (runLoop asciiEnv [keyBranch (mkKey KEYDOWN "f10" 0), keyBranch (mkKey KEYDOWN "f10" 0)]
        (LoopState.start initGlobals)).1.globals.enableCLI = initGlobals.enableCLI
    ∧ inputMode (runLoop asciiEnv
        [keyBranch (mkKey KEYDOWN "f10" 0), keyBranch (mkKey KEYDOWN "f10" 0)]
        (LoopState.start initGlobals)).1.globals = inputMode initGlobals :=
  C4_hotkey_twice_restores_mode asciiEnv (LoopState.start initGlobals)
    (mkKey KEYDOWN "f10" 0) (mkKey KEYDOWN "f10" 0) rfl rfl rfl rfl

/-- C5: in every state of the loop, ConsoleOverlay mode or MachineKeyboard mode, an "escape"
key-down calls `RequestExit()` once, the iteration sends nothing on the console channels,
makes no call on the machine keyboard, leaves the whole loop state (so the input mode)
unchanged, and the loop goes on. -/
theorem C5_escape_requests_exit (env : Env) (st : LoopState) (e : KeyboardEvent)
    (hn : e.keyName = "escape") (ht : e.evType = KEYDOWN) :
    exitRequests (iteration env (keyBranch e) st).2.1 = 1
    ∧ consoleSends (iteration env (keyBranch e) st).2.1 = []
    ∧ keyboardCalls (iteration env (keyBranch e) st).2.1 = []
    ∧ (iteration env (keyBranch e) st).1 = st
    ∧ inputMode (iteration env (keyBranch e) st).1.globals = inputMode st.globals
    ∧ (iteration env (keyBranch e) st).2.2 = true := by
  have h := handleKeyboard_escape env st e hn ht
  simp only [iteration, keyBranch, handleEvent, h, exitRequests_append, exitRequests_log,
    consoleSends_append, consoleSends_log, keyboardCalls_append, keyboardCalls_log,
    and_true, true_and]
  refine ⟨?_, ?_, ?_⟩
  · cases env.Verbose <;> simp [exitRequests]
  · cases env.Verbose <;> simp [consoleSends]
  · cases env.Verbose <;> simp [keyboardCalls]

/-- Witness for C5: the escape key pressed in ConsoleOverlay mode. -/
theorem C5_escape_requests_exit_witness :
    exitRequests (iteration asciiEnv (keyBranch (mkKey KEYDOWN "escape" 27))
        (LoopState.start (toggleCLI initGlobals))).2.1 = 1
    ∧ consoleSends (iteration asciiEnv (keyBranch (mkKey KEYDOWN "escape" 27))
        (LoopState.start (toggleCLI initGlobals))).2.1 = []
    ∧ keyboardCalls (iteration asciiEnv (keyBranch (mkKey KEYDOWN "escape" 27))
        (LoopState.start (toggleCLI initGlobals))).2.1 = []
    ∧ (iteration asciiEnv (keyBranch (mkKey KEYDOWN "escape" 27))
        (LoopState.start (toggleCLI initGlobals))).1 = LoopState.start (toggleCLI initGlobals)
    ∧ inputMode (iteration asciiEnv (keyBranch (mkKey KEYDOWN "escape" 27))
        (LoopState.start (toggleCLI initGlobals))).1.globals
        = inputMode (LoopState.start (toggleCLI initGlobals)).globals
    ∧ (iteration asciiEnv (keyBranch (mkKey KEYDOWN "escape" 27))
        (LoopState.start (toggleCLI initGlobals))).2.2 = true :=
  C5_escape_requests_exit asciiEnv (LoopState.start (toggleCLI initGlobals))
    (mkKey KEYDOWN "escape" 27) rfl rfl

/-- C6, as stated, fails: "left shift" pressed in MachineKeyboard mode, then the hotkey,
then a key-down with unicode 97: the character sent to the console is 97, not 65, although
upper-casing 97 gives 65. -/
theorem C6_shift_before_toggle_counterexample :
    asciiEnv.ToUpper 97 = 65
    ∧ charsForwarded (runLoop asciiEnv
        [keyBranch (mkKey KEYDOWN "left shift" 0), keyBranch (mkKey KEYDOWN "f10" 0),
         keyBranch (mkKey KEYDOWN "a" 97)] (LoopState.start initGlobals)).2 = [97]
    ∧ charsForwarded (runLoop asciiEnv
        [keyBranch (mkKey KEYDOWN "left shift" 0), keyBranch (mkKey KEYDOWN "f10" 0),
         keyBranch (mkKey KEYDOWN "a" 97)] (LoopState.start initGlobals)).2 ≠ [65] := by
  have h1 := handleKeyboard_machine_down asciiEnv (LoopState.start initGlobals)
    (mkKey KEYDOWN "left shift" 0) [0] rfl rfl (by decide) (by decide) (by decide)
  have h2 := handleKeyboard_f10 asciiEnv (LoopState.start initGlobals)
    (mkKey KEYDOWN "f10" 0) rfl rfl
  have h3 := handleKeyboard_console_char asciiEnv
    { LoopState.start initGlobals with globals := toggleCLI initGlobals }
    (mkKey KEYDOWN "a" 97) rfl (by decide) (by decide) (by decide) (by decide) (by decide)
    (by decide) (by decide) (by decide)
  have hrun : charsForwarded (runLoop asciiEnv
        [keyBranch (mkKey KEYDOWN "left shift" 0), keyBranch (mkKey KEYDOWN "f10" 0),
         keyBranch (mkKey KEYDOWN "a" 97)] (LoopState.start initGlobals)).2 = [97] := by
    simp only [runLoop, iteration, keyBranch, handleEvent, h1, h2]
    simp only [LoopState.start] at h3 ⊢
    simp only [h3]
    simp [charsForwarded, asciiEnv, mkKey]
  refine ⟨by decide, hrun, ?_⟩
  rw [hrun]
  decide

/-- C6 (amended): starting in MachineKeyboard mode with the shift flag unset, after a
key-down of "left shift" (received in MachineKeyboard mode), the hotkey key-down and a
key-down of the key "a" carrying unicode 97, the one character sent to the console's
character channel is 97: the shift key pressed in MachineKeyboard mode does not set the
flag. -/
theorem C6_shift_before_toggle_not_uppercased (env : Env) (st : LoopState)
    (sh hot ch : KeyboardEvent)
    (hmode : st.globals.enableCLI = false) (hflag : st.toUpper = false)
    (hsh : sh.keyName = "left shift") (_hsht : sh.evType = KEYDOWN)
    (hhot : hot.keyName = "f10") (hhott : hot.evType = KEYDOWN)
    (hch : ch.keyName = "a") (_hcht : ch.evType = KEYDOWN) (hchu : ch.unicode = 97) :
    charsForwarded (runLoop env [keyBranch sh, keyBranch hot, keyBranch ch] st).2 = [97]
    ∧ (runLoop env [keyBranch sh, keyBranch hot, keyBranch ch] st).1.toUpper = false := by
  obtain ⟨h1s, h1c⟩ := handleKeyboard_machine_inert env st sh hmode
    (by rw [hsh]; decide) (by rw [hsh]; decide)
  have h2 := handleKeyboard_f10 env st hot hhot hhott
  have hmode2 : ({ st with globals := toggleCLI st.globals } : LoopState).globals.enableCLI
      = true := by
    simp [toggleCLI_enableCLI, hmode]
  have h3 := handleKeyboard_console_char env { st with globals := toggleCLI st.globals } ch
    hmode2 (by omega) (by rw [hch]; decide) (by rw [hch]; decide) (by rw [hch]; decide)
    (by rw [hch]; decide) (by rw [hch]; decide) (by rw [hch]; decide) (by rw [hch]; decide)
  rw [hflag] at h2 h3
  simp only [runLoop, iteration, keyBranch, handleEvent, if_true, h1s, h2, h3,
    charsForwarded_append, h1c, charsForwarded_log, hchu]
  cases env.Verbose <;> simp [charsForwarded]

/-- Witness for C6: the run of the amended claim from the start state. -/
theorem C6_shift_before_toggle_not_uppercased_witness :
    charsForwarded (runLoop escapeMappedEnv
        [keyBranch (mkKey KEYDOWN "left shift" 0), keyBranch (mkKey KEYDOWN "f10" 0),
         keyBranch (mkKey KEYDOWN "a" 97)] (LoopState.start initGlobals)).2 = [97]
    ∧ (runLoop escapeMappedEnv
        [keyBranch (mkKey KEYDOWN "left shift" 0), keyBranch (mkKey KEYDOWN "f10" 0),
         keyBranch (mkKey KEYDOWN "a" 97)] (LoopState.start initGlobals)).1.toUpper = false :=
  C6_shift_before_toggle_not_uppercased escapeMappedEnv (LoopState.start initGlobals)
    (mkKey KEYDOWN "left shift" 0) (mkKey KEYDOWN "f10" 0) (mkKey KEYDOWN "a" 97)
    rfl rfl rfl rfl rfl rfl rfl rfl rfl

/-- C7, as stated, fails: with a pause request, a terminate request and a platform event
all pending, the `select` statement may execute the terminate case, or the event case, and
the terminate case then ends the loop. -/
theorem C7_terminate_served_while_pause_pending_counterexample :
    selectMayRun { pause := true, terminate := true, event := some Event.quit }
        Branch.terminate = true
    ∧ selectMayRun { pause := true, terminate := true, event := some Event.quit }
        (Branch.event Event.quit) = true
    ∧ iteration asciiEnv Branch.terminate (LoopState.start initGlobals)
        = (LoopState.start initGlobals, [Action.terminateAck], false) := by
  refine ⟨by decide, by decide, rfl⟩

/-- C7 (amended): in an iteration of `sdlEventLoop` a source is served only if it is
pending and every pending source may be the one served (no order among them); the default
branch is taken exactly when none of the three is pending, it does what `render` does, and
an iteration that presents a frame is one in which none of the three was pending. -/
theorem C7_select_serves_pending_render_when_idle (env : Env) (p : Pending) (b : Branch)
    (st : LoopState) (h : selectMayRun p b = true) :
    (b = Branch.pause → p.pause = true)
    ∧ (b = Branch.terminate → p.terminate = true)
    ∧ (∀ ev, b = Branch.event ev → p.event = some ev)
    ∧ (b = Branch.default ↔ (p.pause = false ∧ p.terminate = false ∧ p.event = none))
    ∧ (p.pause = true → selectMayRun p Branch.pause = true)
    ∧ (p.terminate = true → selectMayRun p Branch.terminate = true)
    ∧ (∀ ev, p.event = some ev → selectMayRun p (Branch.event ev) = true)
    ∧ (b = Branch.default →
        iteration env b st = ({ st with globals := (render st.globals).1 },
          (render st.globals).2, true))
    ∧ (Action.flip ∈ (iteration env b st).2.1 →
        p.pause = false ∧ p.terminate = false ∧ p.event = none) := by
  have hdefault : b = Branch.default →
      (p.pause = false ∧ p.terminate = false ∧ p.event = none) := by
    intro hb
    subst hb
    simp only [selectMayRun, Bool.and_eq_true, Bool.not_eq_true', Option.isNone_iff_eq_none]
      at h
    exact ⟨h.1.1, h.1.2, h.2⟩
  refine ⟨?_, ?_, ?_, ⟨hdefault, ?_⟩, ?_, ?_, ?_, ?_, ?_⟩
  · intro hb
    subst hb
    simpa [selectMayRun] using h
  · intro hb
    subst hb
    simpa [selectMayRun] using h
  · intro ev hb
    subst hb
    simpa [selectMayRun] using h
  · rintro ⟨h1, h2, h3⟩
    cases b with
    | pause => simp [selectMayRun, h1] at h
    | terminate => simp [selectMayRun, h2] at h
    | event ev => simp [selectMayRun, h3] at h
    | default => rfl
  · intro h1
    simpa [selectMayRun] using h1
  · intro h1
    simpa [selectMayRun] using h1
  · intro ev h1
    simp [selectMayRun, h1]
  · intro hb
    subst hb
    rfl
  · intro hf
    cases b with
    | pause => simp [iteration] at hf
    | terminate => cases hv : env.Verbose <;> simp [iteration, hv] at hf
    | event ev => exact absurd hf (flip_not_mem_handleEvent env ev st)
    | default => exact hdefault rfl

/-- Witness for C7: nothing pending, the default branch runs and renders. -/
theorem C7_select_serves_pending_render_when_idle_witness :
    (Branch.default = Branch.pause →
        ({ pause := false, terminate := false, event := none } : Pending).pause = true)
    ∧ (Branch.default = Branch.terminate →
        ({ pause := false, terminate := false, event := none } : Pending).terminate = true)
    ∧ (∀ ev, Branch.default = Branch.event ev →
        ({ pause := false, terminate := false, event := none } : Pending).event = some ev)
    ∧ (Branch.default = Branch.default ↔
        (({ pause := false, terminate := false, event := none } : Pending).pause = false
          ∧ ({ pause := false, terminate := false, event := none } : Pending).terminate
              = false
          ∧ ({ pause := false, terminate := false, event := none } : Pending).event = none))
    ∧ (({ pause := false, terminate := false, event := none } : Pending).pause = true →
        selectMayRun { pause := false, terminate := false, event := none } Branch.pause
          = true)
    ∧ (({ pause := false, terminate := false, event := none } : Pending).terminate = true →
        selectMayRun { pause := false, terminate := false, event := none } Branch.terminate
          = true)
    ∧ (∀ ev, ({ pause := false, terminate := false, event := none } : Pending).event
          = some ev →
        selectMayRun { pause := false, terminate := false, event := none }
          (Branch.event ev) = true)
    ∧ (Branch.default = Branch.default →
        iteration asciiEnv Branch.default (LoopState.start readyGlobals)
          = ({ LoopState.start readyGlobals with
                globals := (render (LoopState.start readyGlobals).globals).1 },
             (render (LoopState.start readyGlobals).globals).2, true))
    ∧ (Action.flip ∈ (iteration asciiEnv Branch.default (LoopState.start readyGlobals)).2.1 →
        ({ pause := false, terminate := false, event := none } : Pending).pause = false
        ∧ ({ pause := false, terminate := false, event := none } : Pending).terminate
            = false
        ∧ ({ pause := false, terminate := false, event := none } : Pending).event = none) :=
  C7_select_serves_pending_render_when_idle asciiEnv
    { pause := false, terminate := false, event := none } Branch.default
    (LoopState.start readyGlobals) (by decide)

/-- C8, as stated, fails: before `main` sets `sdlInitComplete`, an invocation of `render`
presents no frame. -/
theorem C8_no_frame_before_init_counterexample :
    initGlobals.sdlInitComplete = false
    ∧ (render initGlobals).2 = []
    ∧ flips (render initGlobals).2 = 0
    ∧ flips (iteration asciiEnv Branch.default (LoopState.start initGlobals)).2.1 ≠ 1 := by
  refine ⟨rfl, rfl, rfl, ?_⟩
  show flips (render initGlobals).2 ≠ 1
  rw [flips_render]
  decide

/-- C8 (amended): an invocation of `render`, alone or as the default branch of the loop,
presents exactly one frame when `sdlInitComplete` is true and none when it is false. -/
theorem C8_one_frame_per_render_once_initialised (env : Env) (st : LoopState) :
    flips (render st.globals).2 = (if st.globals.sdlInitComplete then 1 else 0)
    ∧ flips (iteration env Branch.default st).2.1
        = (if st.globals.sdlInitComplete then 1 else 0) :=
  ⟨flips_render st.globals, flips_render st.globals⟩

/-- C9: a "left shift" key-down received in ConsoleOverlay mode sets the shift flag
`toUpper`; after any further run of the loop (any succession of pause requests, events of
any kind, hotkey toggles and render ticks) the flag is still set, and every character the
run sends to the console is the upper-cased unicode of one of its keyboard events. -/
theorem C9_shift_flag_is_sticky (env : Env) (st : LoopState) (e : KeyboardEvent)
    (bs : List Branch)
    (hmode : st.globals.enableCLI = true)
    (hn : e.keyName = "left shift") (ht : e.evType = KEYDOWN) :
    (iteration env (keyBranch e) st).1.toUpper = true
    ∧ (runLoop env bs (iteration env (keyBranch e) st).1).1.toUpper = true
    ∧ ∀ c, Action.charCh c ∈ (runLoop env bs (iteration env (keyBranch e) st).1).2 →
        ∃ k, keyBranch k ∈ bs ∧ 0 < k.unicode ∧ c = toUint16 (env.ToUpper k.unicode) := by
  have hset : (iteration env (keyBranch e) st).1.toUpper = true := by
    simp [iteration, keyBranch, handleEvent, handleKeyboard, routeKey, hmode, hn, ht]
  exact ⟨hset, runLoop_toUpper_sticky env bs _ hset,
    fun c hc => runLoop_chars_upper env bs _ hset c hc⟩

/-- Witness for C9: shift pressed in ConsoleOverlay mode, then released, a character, the
hotkey twice with a render tick in between, and another character. -/
theorem C9_shift_flag_is_sticky_witness :
    (iteration asciiEnv (keyBranch (mkKey KEYDOWN "left shift" 0))
        (LoopState.start (toggleCLI initGlobals))).1.toUpper = true
    ∧ (runLoop asciiEnv
        [keyBranch (mkKey KEYUP "left shift" 0), keyBranch (mkKey KEYDOWN "a" 97),
         keyBranch (mkKey KEYDOWN "f10" 0), Branch.default,
         keyBranch (mkKey KEYDOWN "f10" 0), keyBranch (mkKey KEYDOWN "b" 98)]
        (iteration asciiEnv (keyBranch (mkKey KEYDOWN "left shift" 0))
          (LoopState.start (toggleCLI initGlobals))).1).1.toUpper = true
    ∧ ∀ c, Action.charCh c ∈ (runLoop asciiEnv
        [keyBranch (mkKey KEYUP "left shift" 0), keyBranch (mkKey KEYDOWN "a" 97),
         keyBranch (mkKey KEYDOWN "f10" 0), Branch.default,
         keyBranch (mkKey KEYDOWN "f10" 0), keyBranch (mkKey KEYDOWN "b" 98)]
        (iteration asciiEnv (keyBranch (mkKey KEYDOWN "left shift" 0))
          (LoopState.start (toggleCLI initGlobals))).1).2 →
        ∃ k, keyBranch k ∈
            [keyBranch (mkKey KEYUP "left shift" 0), keyBranch (mkKey KEYDOWN "a" 97),
             keyBranch (mkKey KEYDOWN "f10" 0), Branch.default,
             keyBranch (mkKey KEYDOWN "f10" 0), keyBranch (mkKey KEYDOWN "b" 98)]
          ∧ 0 < k.unicode ∧ c = toUint16 (asciiEnv.ToUpper k.unicode) :=
  C9_shift_flag_is_sticky asciiEnv (LoopState.start (toggleCLI initGlobals))
    (mkKey KEYDOWN "left shift" 0) _ rfl rfl rfl

/-- C10: with `sdlInitComplete` true, no toggle in between and `240 ≤ cliY = y ≤ 481`:
(a) while `enableCLI` is true, `k ≤ y - 240` render ticks leave `cliY = y - k` and nothing
else changed, so after exactly `y - 240` ticks `cliY = 240`, and any number of further ticks
leaves `cliY` at 240 and the renderer as it was (allocated if it was);
(b) while `enableCLI` is false, `k ≤ 481 - y` ticks leave `cliY = y + k` and nothing else
changed, so after exactly `481 - y` ticks `cliY = 481` with the renderer as it was, the next
tick sets `cliRenderer` to nil, and further ticks leave the state unchanged.
With `sdlInitComplete` false a render tick changes nothing.  In every state reached from
the initial globals the renderer is allocated whenever `enableCLI` is true. -/
theorem C10_slide_converges (g : Globals) :
    (g.sdlInitComplete = true → 240 ≤ g.cliY → g.cliY ≤ 481 → g.enableCLI = true →
      (∀ k : Nat, (k : Int) ≤ g.cliY - 240 →
          renderTicks k g = { g with cliY := g.cliY - k })
      ∧ (renderTicks (g.cliY - 240).toNat g).cliY = 240
      ∧ (∀ j : Nat, renderTicks ((g.cliY - 240).toNat + j) g = { g with cliY := 240 })
      ∧ (∀ j : Nat, g.cliRenderer ≠ none →
          (renderTicks ((g.cliY - 240).toNat + j) g).cliRenderer ≠ none))
    ∧ (g.sdlInitComplete = true → 240 ≤ g.cliY → g.cliY ≤ 481 → g.enableCLI = false →
      (∀ k : Nat, (k : Int) ≤ 481 - g.cliY →
          renderTicks k g = { g with cliY := g.cliY + k })
      ∧ renderTicks (481 - g.cliY).toNat g = { g with cliY := 481 }
      ∧ renderTicks ((481 - g.cliY).toNat + 1) g
          = { g with cliY := 481, cliRenderer := none }
      ∧ (∀ j : Nat, renderTicks ((481 - g.cliY).toNat + 1 + j) g
          = renderTicks ((481 - g.cliY).toNat + 1) g))
    ∧ (g.sdlInitComplete = false →
        (render g).1 = g ∧ ∀ n : Nat, renderTicks n g = g)
    ∧ (∀ steps : List Step, (runSteps steps initGlobals).enableCLI = true →
        (runSteps steps initGlobals).cliRenderer ≠ none) := by
  refine ⟨?_, ?_, ?_, fun steps =>
    runSteps_keeps_enabled_allocated steps initGlobals (by decide)⟩
  · intro hi hlo hhi he
    have hdesc := fun k hk => renderTicks_enabled_descend k g hi he hk hhi
    have hn : renderTicks (g.cliY - 240).toNat g = { g with cliY := 240 } := by
      rw [hdesc _ (by omega)]
      simp only [Globals.mk.injEq, true_and]
      omega
    have hrest : ∀ j : Nat,
        renderTicks ((g.cliY - 240).toNat + j) g = { g with cliY := 240 } := by
      intro j
      rw [renderTicks_add, hn]
      exact renderTicks_fixed j _ (render_enabled_rest _ hi he (le_refl _))
    refine ⟨hdesc, ?_, hrest, ?_⟩
    · rw [hn]
    · intro j halloc
      rw [hrest j]
      exact halloc
  · intro hi hlo hhi he
    have hasc := fun k hk => renderTicks_disabled_ascend k g hi he hk hlo
    have hm : renderTicks (481 - g.cliY).toNat g = { g with cliY := 481 } := by
      rw [hasc _ (by omega)]
      simp only [Globals.mk.injEq, true_and]
      omega
    have hnext : renderTicks ((481 - g.cliY).toNat + 1) g
        = { g with cliY := 481, cliRenderer := none } := by
      rw [renderTicks_add, hm]
      exact render_disabled_release { g with cliY := 481 } hi he
        (by show (480 : Int) < 481; decide)
    refine ⟨hasc, hm, hnext, ?_⟩
    intro j
    rw [renderTicks_add, hnext]
    exact renderTicks_fixed j _
      (render_disabled_release { g with cliY := 481, cliRenderer := none } hi he
        (by show (480 : Int) < 481; decide))
  · intro hi
    have h : (render g).1 = g := by rw [render_of_not_init g hi]
    exact ⟨h, fun n => renderTicks_fixed n g h⟩

/-- Witness for C10: the three cases at concrete globals (offset 300 with the console
enabled, offset 300 with the console disabled, the initial globals). -/
theorem C10_slide_converges_witness :
    (renderTicks 60 { toggleCLI readyGlobals with cliY := 300 }).cliY = 240
    ∧ renderTicks (181 + 1) { toggleCLI (toggleCLI readyGlobals) with cliY := 300 }
        = { toggleCLI (toggleCLI readyGlobals) with cliY := 481, cliRenderer := none }
    ∧ (render initGlobals).1 = initGlobals :=
  ⟨((C10_slide_converges { toggleCLI readyGlobals with cliY := 300 }).1
      rfl (by decide) (by decide) rfl).2.1,
   ((C10_slide_converges { toggleCLI (toggleCLI readyGlobals) with cliY := 300 }).2.1
      rfl (by decide) (by decide) rfl).2.2.1,
   ((C10_slide_converges initGlobals).2.2.1 rfl).1⟩

end GoSpeccy
